import Mathlib

/-!
Verification of the event-booking reconciliation engine and the incremental
month-bucket sync bookkeeping of the `view_calendar_theYouth` repository.

The TypeScript/JavaScript sources are shallowly embedded:

* Timestamps. A Graph-style timestamp is a pair of a raw date-time string and
  a time-zone label. The raw string is modelled by `RawDateTime`: its `naive`
  field is the millisecond value of the digits of the string read as if they
  were UTC, and `utcOffset` records an explicit trailing zone marker, when the
  string carries one (`some 0` for a `Z` suffix, `some o` for an explicit
  `+hh:mm` / `-hh:mm` offset of `o` milliseconds). The source detects such a
  marker with `endsWith('Z')`, `includes('+')` and `includes('-', 10)` or the
  regex `-\d{2}:\d{2}$`; all of these tests decide exactly whether the string
  carries an explicit marker, which is what `utcOffset` stores. `parseISO`
  (date-fns) on a string with a marker yields the absolute instant
  `naive - offset`; on a string without a marker it interprets the digits in
  the environment's local zone, modelled as a fixed offset `tzOff` of
  milliseconds east of UTC, yielding `naive - tzOff`.
* Absolute instants are integers: milliseconds since the Unix epoch.
* `differenceInMinutes` / `differenceInHours` (date-fns) truncate toward zero;
  `isSameDay` compares local calendar days.
* Lists replace JS arrays; `Option` replaces absent/undefined fields; the JS
  truthiness tests of the source on strings become `!= ""` tests.
-/

/-- A raw Graph date-time string, e.g. `"2025-06-10T10:00:00"` or
`"2025-06-10T10:00:00Z"`: `naive` is the millisecond reading of the digits as
if they were UTC and `utcOffset` is the explicit zone marker, when present. -/
structure RawDateTime where
  naive : Int
  utcOffset : Option Int
  deriving Repr, DecidableEq

/-- The `{ dateTime, timeZone }` pair used by the Graph API for event and
booking start/end fields. -/
structure DateTimeTimeZone where
  dateTime : RawDateTime
  timeZone : String
  deriving Repr, DecidableEq

/-- date-fns `parseISO` in an environment whose local zone is a fixed offset
of `tzOff` milliseconds east of UTC: an explicit marker wins, otherwise the
digits are read in the local zone. -/
def parseISO (tzOff : Int) (raw : RawDateTime) : Int :=
  raw.naive - raw.utcOffset.getD tzOff

/-- `parseBookingDate` (useCalendarEvents.ts): when the raw string has no
explicit zone marker a `Z` is appended before parsing, so the digits are
always read as UTC; an existing marker is honoured. -/
def parseBookingDate (dtz : DateTimeTimeZone) : Int :=
  dtz.dateTime.naive - dtz.dateTime.utcOffset.getD 0

/-- Millisecond count of one minute. -/
def msPerMinute : Nat := 60000

/-- Millisecond count of one hour. -/
def msPerHour : Nat := 3600000

/-- Millisecond count of one day. -/
def msPerDay : Nat := 86400000

/-- `Math.abs(differenceInMinutes(a, b))`: date-fns truncates the signed
millisecond difference toward zero, so the absolute value is
`|a - b| / 60000` in floor division. -/
def absDiffMinutes (a b : Int) : Nat :=
  (a - b).natAbs / msPerMinute

/-- The local calendar day of an absolute instant, in a zone `tzOff`
milliseconds east of UTC (floor division, so pre-1970 instants are handled
correctly). -/
def localDayOf (tzOff t : Int) : Int :=
  Int.fdiv (t + tzOff) (Int.ofNat msPerDay)

/-- date-fns `isSameDay`: the two instants fall on the same calendar day of
the environment's local zone. -/
def isSameDay (tzOff a b : Int) : Bool :=
  localDayOf tzOff a = localDayOf tzOff b

/-! ## JS string operations used by the matcher -/

/-- Does `pat` occur at the head of `l`? (helper for `String.includes`). -/
def charsMatchAt : List Char → List Char → Bool
  | [], _ => true
  | _ :: _, [] => false
  | p :: ps, c :: cs => p = c && charsMatchAt ps cs

/-- Does `pat` occur anywhere inside `hay`? (helper for `String.includes`). -/
def charsContain (hay pat : List Char) : Bool :=
  match hay with
  | [] => pat.isEmpty
  | _ :: rest => charsMatchAt pat hay || charsContain rest pat

/-- JS `a.includes(b)`: `b` is a contiguous substring of `a`. -/
def jsIncludes (a b : String) : Bool :=
  charsContain a.toList b.toList

/-- JS `toLowerCase()`: lowercase character by character (the identifiers
the matcher compares are ASCII). -/
def jsToLower (s : String) : String :=
  String.mk (s.toList.map Char.toLower)

/-- JS `s.trim()`: strip leading and trailing whitespace. -/
def jsTrim (s : String) : String :=
  String.mk (((s.toList.dropWhile Char.isWhitespace).reverse.dropWhile
    Char.isWhitespace).reverse)

/-- `normalizeRoomName` (useCalendarEvents.ts): lowercase, then strip every
character that is not an ASCII lowercase letter or digit (the source's
`replace(/[^a-z0-9]/g, '')` after `toLowerCase()`; the trailing `.trim()` is
a no-op on the stripped string). -/
def normalizeRoomName (name : String) : String :=
  String.mk ((jsToLower name).toList.filter fun c => c.isDigit || ('a' ≤ c && c ≤ 'z'))

/-- JS `s.split('@')[0]`: the text before the first `'@'`, or the whole
string when there is none. -/
def localPartChars : List Char → List Char
  | [] => []
  | c :: rest => if c = '@' then [] else c :: localPartChars rest

/-- `String` version of `localPartChars`. -/
def localPart (s : String) : String :=
  String.mk (localPartChars s.toList)

/-- Splitting on a separator class, as JS `split(regex)`: runs of separators
may produce empty fragments, which every caller below immediately filters
away with a `length > 2` test, so collapsing runs is not modelled. -/
def splitChars (sep : Char → Bool) (l : List Char) : List (List Char) :=
  l.foldr
    (fun c acc =>
      if sep c then [] :: acc
      else
        match acc with
        | [] => [[c]]
        | w :: ws => (c :: w) :: ws)
    [[]]

/-- `s.split(/\s+/).filter(w => w.length > 2)` on an already-lowercased
string. -/
def wordsOver2 (sep : Char → Bool) (l : List Char) : List (List Char) :=
  (splitChars sep l).filter fun w => w.length > 2

/-! ## Data model (graphService.ts / types/calendar.ts), restricted to the
fields the reconciliation engine reads -/

/-- One `{ question, answer }` record of a booking customer (the remaining
metadata fields of `BookingCustomQuestionAnswer` are never read by the code
under verification). -/
structure BookingCustomQuestionAnswer where
  question : String
  answer : String
  deriving Repr, DecidableEq

/-- A booking customer: `customQuestionAnswers` is `none` when the field is
absent (the source guards with `if (customer.customQuestionAnswers)`). -/
structure BookingCustomer where
  name : String
  customQuestionAnswers : Option (List BookingCustomQuestionAnswer)
  deriving Repr, DecidableEq

/-- `serviceLocation` of a booking appointment. -/
structure ServiceLocation where
  displayName : String
  locationEmailAddress : Option String
  locationUri : Option String
  deriving Repr, DecidableEq

/-- A Microsoft Bookings appointment (graphService.ts `BookingAppointment`),
restricted to the fields the matcher and the sync services read. -/
structure BookingAppointment where
  id : String
  customerName : String
  customerEmailAddress : String
  customerPhone : String
  customerNotes : Option String
  serviceNotes : Option String
  startDateTime : DateTimeTimeZone
  endDateTime : DateTimeTimeZone
  customers : Option (List BookingCustomer)
  serviceLocation : Option ServiceLocation
  deriving Repr, DecidableEq

/-- `location` of a calendar event. -/
structure EventLocation where
  displayName : String
  deriving Repr, DecidableEq

/-- A calendar event (types/calendar.ts `CalendarEvent`), restricted to the
fields the matcher reads and the enrichment fields it writes. `endTime`
stands for the source's `end` field (a Lean keyword). -/
structure CalendarEvent where
  id : String
  subject : String
  start : DateTimeTimeZone
  endTime : DateTimeTimeZone
  location : Option EventLocation
  roomId : Option String
  bookingCustomerName : Option String
  bookingCustomerEmail : Option String
  bookingCustomerPhone : Option String
  bookingCustomQuestions : Option (List BookingCustomQuestionAnswer)
  bookingServiceNotes : Option String
  deriving Repr, DecidableEq

/-! ## locationMatchesRoom (useCalendarEvents.ts lines 72-126)

The local constants of the source become the named helpers below so that the
code translation and the spec-side predicates can share them verbatim. -/

/-- `booking.serviceLocation.displayName || ''`. -/
def bookingLocationOf (loc : ServiceLocation) : String :=
  loc.displayName

/-- `booking.serviceLocation.locationEmailAddress || ''`. -/
def bookingEmailOf (loc : ServiceLocation) : String :=
  loc.locationEmailAddress.getD ""

/-- `booking.serviceLocation.locationUri || ''`. -/
def bookingUriOf (loc : ServiceLocation) : String :=
  loc.locationUri.getD ""

/-- `event.location?.displayName || ''`. -/
def eventLocationOf (e : CalendarEvent) : String :=
  match e.location with
  | some l => l.displayName
  | none => ""

/-- `event.roomId || ''`. -/
def eventRoomIdOf (e : CalendarEvent) : String :=
  e.roomId.getD ""

/-- `bookingWords`: whitespace-delimited words of length `> 2` of the
lowercased booking location display name. -/
def bookingWordsOf (loc : ServiceLocation) : List (List Char) :=
  wordsOver2 Char.isWhitespace (jsToLower (bookingLocationOf loc)).toList

/-- `eventWords`: whitespace-delimited words of length `> 2` of the
lowercased event location display name. -/
def eventWordsOf (e : CalendarEvent) : List (List Char) :=
  wordsOver2 Char.isWhitespace (jsToLower (eventLocationOf e)).toList

/-- `roomIdWords`: the local part of the room id (text before `'@'`),
lowercased, split on `.`, `-`, `_`, keeping words of length `> 2`. -/
def roomIdWordsOf (e : CalendarEvent) : List (List Char) :=
  wordsOver2 (fun c => c = '.' || c = '-' || c = '_')
    (jsToLower (localPart (eventRoomIdOf e))).toList

/-- `locationMatchesRoom` (useCalendarEvents.ts): the cascading fuzzy match
between a booking's service location and an event's room. The two early
returns inside each guarded block of the source flatten into the successive
guarded branches below. -/
def locationMatchesRoom (booking : BookingAppointment) (event : CalendarEvent) : Bool :=
  match booking.serviceLocation with
  | none => false
  | some loc =>
    if bookingUriOf loc != "" && eventRoomIdOf event != ""
        && jsToLower (bookingUriOf loc) == jsToLower (eventRoomIdOf event) then true
    else if bookingEmailOf loc != "" && eventRoomIdOf event != ""
        && jsToLower (bookingEmailOf loc) == jsToLower (eventRoomIdOf event) then true
    else if normalizeRoomName (bookingLocationOf loc) != ""
        && normalizeRoomName (eventLocationOf event) != ""
        && normalizeRoomName (bookingLocationOf loc)
          == normalizeRoomName (eventLocationOf event) then true
    else if normalizeRoomName (bookingLocationOf loc) != ""
        && normalizeRoomName (eventLocationOf event) != ""
        && (jsIncludes (normalizeRoomName (bookingLocationOf loc))
              (normalizeRoomName (eventLocationOf event))
            || jsIncludes (normalizeRoomName (eventLocationOf event))
              (normalizeRoomName (bookingLocationOf loc))) then true
    else if normalizeRoomName (bookingLocationOf loc) != ""
        && normalizeRoomName (localPart (eventRoomIdOf event)) != ""
        && normalizeRoomName (bookingLocationOf loc)
          == normalizeRoomName (localPart (eventRoomIdOf event)) then true
    else if normalizeRoomName (bookingLocationOf loc) != ""
        && normalizeRoomName (localPart (eventRoomIdOf event)) != ""
        && (jsIncludes (normalizeRoomName (bookingLocationOf loc))
              (normalizeRoomName (localPart (eventRoomIdOf event)))
            || jsIncludes (normalizeRoomName (localPart (eventRoomIdOf event)))
              (normalizeRoomName (bookingLocationOf loc))) then true
    else if (bookingWordsOf loc).length > 0 then
      (bookingWordsOf loc).all fun bw =>
        (eventWordsOf event).any (fun ew => charsContain ew bw || charsContain bw ew)
          || (roomIdWordsOf event).any (fun rw => charsContain rw bw || charsContain bw rw)
    else false

/-! ## Spec-side resource-equivalence predicates (claim C2)

The specification describes `locationMatchesRoom` as an ordered cascade of
named heuristics, first match wins. Each heuristic below is written from the
spec's words; a hint or a display name takes part in a comparison only when
it is present (a JS empty string stands for an absent value, which is what
the source's truthiness guards test). Since every heuristic that fires
returns `true`, "first match wins" coincides with their disjunction. -/

/-- Spec heuristic (a): exact case-insensitive equality between the location
URI hint and the resource id, both present. -/
def specUriMatch (loc : ServiceLocation) (e : CalendarEvent) : Bool :=
  bookingUriOf loc != "" && eventRoomIdOf e != ""
    && jsToLower (bookingUriOf loc) == jsToLower (eventRoomIdOf e)

/-- Spec heuristic (b): exact case-insensitive equality between the location
contact-address hint and the resource id, both present. -/
def specEmailMatch (loc : ServiceLocation) (e : CalendarEvent) : Bool :=
  bookingEmailOf loc != "" && eventRoomIdOf e != ""
    && jsToLower (bookingEmailOf loc) == jsToLower (eventRoomIdOf e)

/-- Spec heuristic (c): equality of normalized display names (lowercase,
strip all non-alphanumerics), both non-degenerate. -/
def specNameEqMatch (loc : ServiceLocation) (e : CalendarEvent) : Bool :=
  normalizeRoomName (bookingLocationOf loc) != ""
    && normalizeRoomName (eventLocationOf e) != ""
    && normalizeRoomName (bookingLocationOf loc) == normalizeRoomName (eventLocationOf e)

/-- Spec heuristic (d): substring containment, in either direction, of the
normalized display names. -/
def specNameSubMatch (loc : ServiceLocation) (e : CalendarEvent) : Bool :=
  normalizeRoomName (bookingLocationOf loc) != ""
    && normalizeRoomName (eventLocationOf e) != ""
    && (jsIncludes (normalizeRoomName (bookingLocationOf loc))
          (normalizeRoomName (eventLocationOf e))
        || jsIncludes (normalizeRoomName (eventLocationOf e))
          (normalizeRoomName (bookingLocationOf loc)))

/-- First half of spec heuristic (e): equality between the normalized
booking location name and the normalized local part of the resource id
(text before any `@`). -/
def specLocalPartEqMatch (loc : ServiceLocation) (e : CalendarEvent) : Bool :=
  normalizeRoomName (bookingLocationOf loc) != ""
    && normalizeRoomName (localPart (eventRoomIdOf e)) != ""
    && normalizeRoomName (bookingLocationOf loc)
      == normalizeRoomName (localPart (eventRoomIdOf e))

/-- Second half of spec heuristic (e): substring containment, in either
direction, between the normalized booking location name and the normalized
local part of the resource id. -/
def specLocalPartSubMatch (loc : ServiceLocation) (e : CalendarEvent) : Bool :=
  normalizeRoomName (bookingLocationOf loc) != ""
    && normalizeRoomName (localPart (eventRoomIdOf e)) != ""
    && (jsIncludes (normalizeRoomName (bookingLocationOf loc))
          (normalizeRoomName (localPart (eventRoomIdOf e)))
        || jsIncludes (normalizeRoomName (localPart (eventRoomIdOf e)))
          (normalizeRoomName (bookingLocationOf loc)))

/-- Spec heuristic (e): equality or substring containment, in either
direction, between the normalized booking location name and the normalized
local part of the resource id. -/
def specLocalPartMatch (loc : ServiceLocation) (e : CalendarEvent) : Bool :=
  specLocalPartEqMatch loc e || specLocalPartSubMatch loc e

/-- Spec heuristic (f): every whitespace-delimited word of length `> 2` of
the booking's location display name contains, or is contained in, some word
of the event's location display name or of the resource id's local part
(split additionally on `.`, `-`, `_`); there must be at least one such word
for the heuristic to apply. -/
def specWordMatch (loc : ServiceLocation) (e : CalendarEvent) : Bool :=
  (bookingWordsOf loc).length > 0
    && ((bookingWordsOf loc).all fun bw =>
      (eventWordsOf e).any (fun ew => charsContain ew bw || charsContain bw ew)
        || (roomIdWordsOf e).any (fun rw => charsContain rw bw || charsContain bw rw))

/-- The spec's resource pre-filter: a booking with no location reference
never matches; otherwise the ordered heuristics (a)-(f), first match wins. -/
def specLocationMatchesRoom (booking : BookingAppointment) (e : CalendarEvent) : Bool :=
  match booking.serviceLocation with
  | none => false
  | some loc =>
    specUriMatch loc e || specEmailMatch loc e || specNameEqMatch loc e
      || specNameSubMatch loc e || specLocalPartMatch loc e || specWordMatch loc e

/-! ## enrichEventsWithBookingData (useCalendarEvents.ts lines 129-272) -/

/-- The event's start instant as the source computes it: when the event's
start `timeZone` is `"UTC"`/`"Etc/UTC"` and the raw string carries no marker
a `Z` is appended (digits read as UTC); otherwise date-fns `parseISO`
applies, reading unmarked digits in the environment's local zone. -/
def eventStartInstant (tzOff : Int) (e : CalendarEvent) : Int :=
  if e.start.timeZone == "UTC" || e.start.timeZone == "Etc/UTC" then
    e.start.dateTime.naive - e.start.dateTime.utcOffset.getD 0
  else parseISO tzOff e.start.dateTime

/-- The event's end instant; the source keys the `Z`-appending test for the
end string on `event.start.timeZone` as well. -/
def eventEndInstant (tzOff : Int) (e : CalendarEvent) : Int :=
  if e.start.timeZone == "UTC" || e.start.timeZone == "Etc/UTC" then
    e.endTime.dateTime.naive - e.endTime.dateTime.utcOffset.getD 0
  else parseISO tzOff e.endTime.dateTime

/-- One entry of `potentialMatches`: a booking together with its
`startDiff` in whole minutes. -/
structure MatchCandidate where
  booking : BookingAppointment
  startDiff : Nat
  deriving Repr, DecidableEq

/-- The body of the `bookings.map(...)` callback of
`enrichEventsWithBookingData`: same-day pre-filter, resource pre-filter,
then the `startDiff <= 30 || timesOverlap` acceptance test. -/
def evalBooking (tzOff : Int) (e : CalendarEvent) (booking : BookingAppointment) :
    Option MatchCandidate :=
  let bookingStart := parseBookingDate booking.startDateTime
  let bookingEnd := parseBookingDate booking.endDateTime
  if !isSameDay tzOff (eventStartInstant tzOff e) bookingStart then none
  else if !locationMatchesRoom booking e then none
  else
    let startDiff := absDiffMinutes (eventStartInstant tzOff e) bookingStart
    let timesOverlap :=
      eventStartInstant tzOff e < bookingEnd && eventEndInstant tzOff e > bookingStart
    if startDiff ≤ 30 || timesOverlap then some ⟨booking, startDiff⟩ else none

/-- `potentialMatches`: the accepted candidates, in the bookings' original
order (`map` + `filter` of the source = `filterMap`). -/
def potentialMatches (tzOff : Int) (e : CalendarEvent)
    (bookings : List BookingAppointment) : List MatchCandidate :=
  bookings.filterMap (evalBooking tzOff e)

/-- One step of the stable ascending sort by `startDiff`: insert before the
first strictly larger element, after equal ones. -/
def insertByDiff (a : MatchCandidate) : List MatchCandidate → List MatchCandidate
  | [] => [a]
  | b :: l => if a.startDiff ≤ b.startDiff then a :: b :: l else b :: insertByDiff a l

/-- `potentialMatches.sort((a, b) => a.startDiff - b.startDiff)`: JS
`Array.prototype.sort` is stable (ES2019), modelled by stable insertion
sort. -/
def sortByDiff : List MatchCandidate → List MatchCandidate
  | [] => []
  | a :: l => insertByDiff a (sortByDiff l)

/-- `potentialMatches.length > 0 ? potentialMatches[0].booking : null` after
the sort: the selected candidate. -/
def selectedCandidate (tzOff : Int) (e : CalendarEvent)
    (bookings : List BookingAppointment) : Option MatchCandidate :=
  (sortByDiff (potentialMatches tzOff e bookings)).head?

/-- Spec-side selection: the candidate with the smallest `startDiff`, ties
broken by original position (the earlier of two equal candidates wins). -/
def firstMinByDiff : List MatchCandidate → Option MatchCandidate
  | [] => none
  | a :: l =>
    match firstMinByDiff l with
    | none => some a
    | some b => if b.startDiff < a.startDiff then some b else some a

/-- The flattening of the selected booking's per-customer question answers
whose answer is non-empty and not whitespace-only (the source's
`qa.answer && qa.answer.trim()` truthiness test), preserving per-customer,
per-question order. -/
def collectCustomQuestions (booking : BookingAppointment) : List BookingCustomQuestionAnswer :=
  match booking.customers with
  | none => []
  | some customers =>
    if customers.length > 0 then
      customers.foldl
        (fun acc customer =>
          match customer.customQuestionAnswers with
          | none => acc
          | some qas =>
            acc ++ qas.filterMap fun qa =>
              if qa.answer != "" && jsTrim qa.answer != "" then some qa else none)
        []
    else []

/-- JS `a || b` on optional strings: an absent or empty left operand falls
through to the right one. -/
def jsOrString (a b : Option String) : Option String :=
  match a with
  | some s => if s = "" then b else some s
  | none => b

/-- The enrichment of one event: attach the selected booking's customer
data, flattened custom-question answers (omitted when empty) and service
notes (falling back to customer notes), or pass the event through unchanged
when no booking is selected. -/
def enrichOne (tzOff : Int) (bookings : List BookingAppointment)
    (e : CalendarEvent) : CalendarEvent :=
  match selectedCandidate tzOff e bookings with
  | none => e
  | some cand =>
    { e with
      bookingCustomerName := some cand.booking.customerName
      bookingCustomerEmail := some cand.booking.customerEmailAddress
      bookingCustomerPhone := some cand.booking.customerPhone
      bookingCustomQuestions :=
        if (collectCustomQuestions cand.booking).length > 0 then
          some (collectCustomQuestions cand.booking)
        else none
      bookingServiceNotes :=
        jsOrString cand.booking.serviceNotes (jsOrString cand.booking.customerNotes none) }

/-- `enrichEventsWithBookingData` (useCalendarEvents.ts): the reconciliation
engine. An empty booking list short-circuits to the events unchanged. -/
def enrichEventsWithBookingData (tzOff : Int) (events : List CalendarEvent)
    (bookings : List BookingAppointment) : List CalendarEvent :=
  if bookings.length = 0 then events
  else events.map (enrichOne tzOff bookings)

/-! ## Calendar-month model (bookingDatabaseService.ts, database.js)

Month buckets are keyed by `'yyyy-MM'` strings; the format is a bijective
encoding of a (year, month) pair, modelled by the linear month index
`k` = months since January 1970 (so `'1970-01'` is `0`, `'2025-01'` is
`660`). The sync bookkeeping is specified in an environment whose local zone
is UTC, so `format(now, 'yyyy-MM')` reads off the UTC calendar month of
`now` and `new Date(monthKey + '-01')` is the UTC midnight opening the
month, exactly as in the code. -/

/-- Gregorian leap-year test. -/
def isLeapYear (y : Int) : Bool :=
  y % 4 = 0 && (y % 100 ≠ 0 || y % 400 = 0)

/-- Day counts of the twelve months, indexed 0-11 within a year (the
catch-all branch is never reached from `daysInMonthIdx`). -/
def monthLengthAt (leap : Bool) : Nat → Nat
  | 0 => 31
  | 1 => if leap then 29 else 28
  | 2 => 31
  | 3 => 30
  | 4 => 31
  | 5 => 30
  | 6 => 31
  | 7 => 31
  | 8 => 30
  | 9 => 31
  | 10 => 30
  | _ => 31

/-- The calendar year of month index `k`. -/
def yearOfIdx (k : Int) : Int :=
  1970 + Int.fdiv k 12

/-- Number of days in the month of index `k`. -/
def daysInMonthIdx (k : Int) : Nat :=
  monthLengthAt (isLeapYear (yearOfIdx k)) (Int.emod k 12).toNat

/-- Milliseconds of the UTC midnight opening month `n` (counting forward
from the epoch). -/
def startOfMonthFwd : Nat → Int
  | 0 => 0
  | n + 1 => startOfMonthFwd n + (msPerDay : Int) * (daysInMonthIdx (Int.ofNat n))

/-- Milliseconds elapsed between the UTC midnight opening month `-(n+1)` and
the epoch (counting backward). -/
def startOfMonthBwd : Nat → Int
  | 0 => 0
  | n + 1 => startOfMonthBwd n + (msPerDay : Int) * (daysInMonthIdx (Int.negSucc n))

/-- `new Date(monthKey + '-01')` in UTC: the instant opening month `k`. -/
def startOfMonthMs : Int → Int
  | Int.ofNat n => startOfMonthFwd n
  | Int.negSucc n => -(startOfMonthBwd (n + 1))

/-- A civil UTC date-time: month index, 1-based day of month, milliseconds
since the day's midnight. `Date.now()`-style instants handed to the sync
bookkeeping are given in this decoded form. -/
structure CivilInstant where
  monthIdx : Int
  dayOfMonth : Nat
  msOfDay : Nat
  deriving Repr, DecidableEq

/-- Well-formedness of a civil date-time: the day exists in its month and
the time fits in a day. -/
def CivilInstant.Valid (t : CivilInstant) : Prop :=
  1 ≤ t.dayOfMonth ∧ t.dayOfMonth ≤ daysInMonthIdx t.monthIdx ∧ t.msOfDay < msPerDay

instance (t : CivilInstant) : Decidable t.Valid := by
  unfold CivilInstant.Valid; infer_instance

/-- The epoch-millisecond value of a civil UTC date-time. -/
def CivilInstant.ms (t : CivilInstant) : Int :=
  startOfMonthMs t.monthIdx + (msPerDay : Int) * ((t.dayOfMonth : Int) - 1) + (t.msOfDay : Int)

/-! ## Partitioned booking store (bookingDatabaseService.ts) -/

/-- Per-month sync metadata (`MonthSyncMetadata`). -/
structure MonthSyncMetadata where
  monthKey : Int
  lastSync : Int
  bookingCount : Nat
  deriving Repr, DecidableEq

/-- A stored booking record (`StoredBooking`): the appointment plus the
store key `dbKey` (the booking id), its month bucket and the store time. -/
structure StoredBooking where
  data : BookingAppointment
  dbKey : String
  monthKey : Int
  storedAt : Int
  deriving Repr, DecidableEq

/-- The partitioned booking store: the `bookings` object store and the
`syncMetadata` object store. -/
structure BookingStore where
  bookings : List StoredBooking
  syncMeta : List MonthSyncMetadata
  deriving Repr, DecidableEq

/-- IndexedDB `put` on the bookings store: replace the record carrying the
same key, or add the record. -/
def putByDbKey (l : List StoredBooking) (sb : StoredBooking) : List StoredBooking :=
  if l.any fun x => x.dbKey = sb.dbKey then
    l.map fun x => if x.dbKey = sb.dbKey then sb else x
  else l ++ [sb]

/-- IndexedDB `put` on the metadata store, keyed by `monthKey`. -/
def upsertMeta (l : List MonthSyncMetadata) (m : MonthSyncMetadata) : List MonthSyncMetadata :=
  if l.any fun x => x.monthKey = m.monthKey then
    l.map fun x => if x.monthKey = m.monthKey then m else x
  else l ++ [m]

/-- Metadata lookup (`store.get(monthKey)`). -/
def metaGet (l : List MonthSyncMetadata) (k : Int) : Option MonthSyncMetadata :=
  l.find? fun x => x.monthKey = k

/-- IndexedDB key order on strings: lexicographic comparison of the code
units (the matcher's ids are ASCII, where scalar values and UTF-16 code
units agree). -/
def charsLt : List Char → List Char → Bool
  | [], [] => false
  | [], _ :: _ => true
  | _ :: _, [] => false
  | a :: as, b :: bs =>
    if a.val < b.val then true
    else if b.val < a.val then false
    else charsLt as bs

/-- `String` version of `charsLt`. -/
def strLt (a b : String) : Bool :=
  charsLt a.toList b.toList

/-- The position at which the month bucket's delete cursor opens: the
smallest store key among the bucket's records before any `put` of the
transaction executes, or `none` for an empty bucket (the index on
`monthKey` lists the bucket's records in primary-key order). -/
def minBucketDbKey (monthKey : Int) (l : List StoredBooking) : Option String :=
  l.foldl
    (fun acc sb =>
      if sb.monthKey = monthKey then
        match acc with
        | none => some sb.dbKey
        | some m => if strLt sb.dbKey m then some sb.dbKey else some m
      else acc)
    none

/-- `storeBookingsForMonth` (bookingDatabaseService.ts lines 82-132): one
readwrite transaction whose requests execute in placement order: the delete
cursor's `openCursor` first (positioning at the bucket's smallest record id
against the pre-`put` contents), then every `put` of the new records (keyed
by the booking id, stamped with the bucket and store time), then the
metadata `put`; only then do the cursor handler's `delete`/`continue`
requests run, and the live cursor sweeps every record of the bucket - old
or newly put - whose id is at or after its opening position. Records of the
bucket with an id strictly before the first old id survive; on a
previously-empty bucket the cursor fires with no record and every `put`
survives. The transaction is a single state transition, so no intermediate
state is observable. -/
def storeBookingsForMonth (now monthKey : Int) (bookings : List BookingAppointment)
    (st : BookingStore) : BookingStore :=
  let firstOldKey := minBucketDbKey monthKey st.bookings
  let afterPut :=
    bookings.foldl (fun acc b => putByDbKey acc ⟨b, b.id, monthKey, now⟩) st.bookings
  { bookings :=
      match firstOldKey with
      | none => afterPut
      | some firstId =>
        afterPut.filter fun sb => !(sb.monthKey = monthKey && !strLt sb.dbKey firstId)
    syncMeta := upsertMeta st.syncMeta ⟨monthKey, now, bookings.length⟩ }

/-- `monthNeedsSync` (bookingDatabaseService.ts lines 187-234): `true` when
the bucket has no metadata, otherwise compares the whole elapsed hours
(date-fns `differenceInHours`, truncating toward zero) against a maximum
age of 1 hour for the current month, 6 hours when the bucket's first instant
lies after `now`, 24 hours otherwise. -/
def monthNeedsSync (syncMeta : List MonthSyncMetadata) (now : CivilInstant)
    (monthKey : Int) : Bool :=
  match metaGet syncMeta monthKey with
  | none => true
  | some meta =>
    let hoursSinceSync := Int.tdiv (now.ms - meta.lastSync) (msPerHour : Int)
    let maxAge : Int :=
      if monthKey = now.monthIdx then 1
      else if startOfMonthMs monthKey > now.ms then 6
      else 24
    hoursSinceSync > maxAge

/-- The spec's maximum-age policy, phrased on calendar months: 1 hour for
the current month, 6 hours for a strictly future month, 24 hours for a
strictly past month. -/
def specMaxAge (now : CivilInstant) (monthKey : Int) : Int :=
  if monthKey = now.monthIdx then 1
  else if monthKey > now.monthIdx then 6
  else 24

/-! ## Frontend smart sync (bookingSmartSyncService.ts) -/

/-- Outcome of an awaited remote call: a value, or a thrown error. -/
inductive FetchOutcome (α : Type) where
  | ok (val : α)
  | thrown
  deriving Repr, DecidableEq

/-- A Microsoft Bookings business. -/
structure BookingBusiness where
  id : String
  displayName : String
  deriving Repr, DecidableEq

/-- Result of `syncMonth`. -/
structure SyncMonthResult where
  success : Bool
  count : Nat
  deriving Repr, DecidableEq

/-- The booking's start instant as the month filter reads it:
`new Date(booking.startDateTime.dateTime)` in a UTC environment coincides
with `parseBookingDate` (explicit marker honoured, unmarked digits read as
UTC). -/
def bookingStartInstant (b : BookingAppointment) : Int :=
  parseBookingDate b.startDateTime

/-- `format(new Date(booking.startDateTime.dateTime), 'yyyy-MM') === monthKey`:
the booking's start falls in calendar month `monthKey`, i.e. inside the
month's half-open UTC interval. -/
def bookingStartInMonth (monthKey : Int) (b : BookingAppointment) : Bool :=
  startOfMonthMs monthKey ≤ bookingStartInstant b
    && bookingStartInstant b < startOfMonthMs (monthKey + 1)

/-- The appointment-accumulation loop of `BookingSmartSyncService.syncMonth`:
the appointments of every business, in order; a business whose fetch throws
is skipped. -/
def accumulateBookings (businesses : List BookingBusiness)
    (fetchAppointments : String → FetchOutcome (List BookingAppointment)) :
    List BookingAppointment :=
  businesses.foldl
    (fun acc biz =>
      match fetchAppointments biz.id with
      | .ok appointments => acc ++ appointments
      | .thrown => acc)
    []

/-- `BookingSmartSyncService.syncMonth` (bookingSmartSyncService.ts lines
15-61): list the businesses (a thrown listing fails the month), return
`{success: true, count: 0}` without storing anything when no business is
found, otherwise accumulate the appointments of every business, keep those
starting in the month and replace the bucket with them. -/
def syncMonth (now monthKey : Int) (businessesRes : FetchOutcome (List BookingBusiness))
    (fetchAppointments : String → FetchOutcome (List BookingAppointment))
    (st : BookingStore) : SyncMonthResult × BookingStore :=
  match businessesRes with
  | .thrown => (⟨false, 0⟩, st)
  | .ok businesses =>
    if businesses.length = 0 then (⟨true, 0⟩, st)
    else
      let monthBookings :=
        (accumulateBookings businesses fetchAppointments).filter (bookingStartInMonth monthKey)
      (⟨true, monthBookings.length⟩, storeBookingsForMonth now monthKey monthBookings st)

/-! ## Concurrency structure of `syncAllNeededMonths`
(bookingSmartSyncService.ts lines 64-118)

The method body is modelled at the level of the `syncOperation` executions
it starts and the observable actions each execution performs in program
order; concurrent executions interleave at await points, so the observable
traces of two executions are their merges. -/

/-- Observable actions of one `syncOperation` execution: the progress
callback before each month, and the begin/end of each awaited
`syncMonth` call. -/
inductive SyncAction where
  | onProgress (current total : Nat) (monthKey : Int)
  | syncMonthBegin (monthKey : Int)
  | syncMonthDone (monthKey : Int)
  deriving Repr, DecidableEq

/-- The actions of one `syncOperation` execution, in program order: for the
`i`-th stale month, the progress callback, then the awaited `syncMonth`. -/
def syncOperationActions (monthsNeeded : List Int) : List SyncAction :=
  (monthsNeeded.enum.map fun p =>
    [SyncAction.onProgress (p.1 + 1) monthsNeeded.length p.2,
      SyncAction.syncMonthBegin p.2, SyncAction.syncMonthDone p.2]).flatten

/-- The `syncOperation` executions started by one `syncAllNeededMonths`
call: none when `isSyncing` is already set (the caller merely awaits the
in-flight promise and returns), otherwise TWO - line 109 invokes
`syncOperation()` to store `this.syncPromise` without awaiting it, and line
112 invokes `syncOperation()` a second time and awaits that one. -/
def syncAllNeededMonthsTasks (isSyncing : Bool) (monthsNeeded : List Int) :
    List (List SyncAction) :=
  if isSyncing then []
  else [syncOperationActions monthsNeeded, syncOperationActions monthsNeeded]

/-- All cooperative interleavings of two action sequences, by structural
recursion on a fuel bounding the combined length. -/
def interleavingsFuel : Nat → List SyncAction → List SyncAction → List (List SyncAction)
  | 0, _, _ => []
  | _ + 1, [], ys => [ys]
  | _ + 1, x :: xs, [] => [x :: xs]
  | fuel + 1, x :: xs, y :: ys =>
    (interleavingsFuel fuel xs (y :: ys)).map (x :: ·)
      ++ (interleavingsFuel fuel (x :: xs) ys).map (y :: ·)

/-- All cooperative interleavings of two action sequences. -/
def interleavings (xs ys : List SyncAction) : List (List SyncAction) :=
  interleavingsFuel (xs.length + ys.length + 1) xs ys

/-! ## Backend sync (database.js, syncService.js) -/

/-- SQLite `INSERT` into the bookings table: the id is the primary key, so
inserting a record whose id is already present raises and the surrounding
transaction rolls back (`none`). -/
def insertRow (l : List StoredBooking) (sb : StoredBooking) : Option (List StoredBooking) :=
  if l.any fun x => x.dbKey = sb.dbKey then none else some (l ++ [sb])

/-- Insert a batch of rows, failing on the first primary-key conflict. -/
def insertRows (l : List StoredBooking) : List StoredBooking → Option (List StoredBooking)
  | [] => some l
  | sb :: rest =>
    match insertRow l sb with
    | none => none
    | some l2 => insertRows l2 rest

/-- `storeBookingsForMonth` (database.js lines 434-482): one transaction
deleting the month's rows, inserting the new rows and upserting the
metadata; a failure mid-transaction rolls the whole store back (`none`). -/
def storeBookingsForMonthSql (now monthKey : Int) (bookings : List BookingAppointment)
    (st : BookingStore) : Option BookingStore :=
  let afterDelete := st.bookings.filter fun sb => sb.monthKey ≠ monthKey
  match insertRows afterDelete (bookings.map fun b => ⟨b, b.id, monthKey, now⟩) with
  | none => none
  | some rows => some ⟨rows, upsertMeta st.syncMeta ⟨monthKey, now, bookings.length⟩⟩

/-- `syncMonth` (syncService.js lines 107-152). `getBookingBusinesses`
returns `[]` on a non-ok HTTP response and only throws on a network-level
error; with no business found the code stores an EMPTY set for the month;
otherwise it fetches the configured (or first) business, keeps the
appointments starting in the month and replaces the bucket. Any thrown
error is caught and reported as `{success: false}` with the store
untouched. -/
def syncMonthJs (now monthKey : Int)
    (businessesRes : FetchOutcome (List BookingBusiness))
    (configuredBusinessId : Option String)
    (fetchAppointments : String → FetchOutcome (List BookingAppointment))
    (st : BookingStore) : SyncMonthResult × BookingStore :=
  match businessesRes with
  | .thrown => (⟨false, 0⟩, st)
  | .ok [] =>
    match storeBookingsForMonthSql now monthKey [] st with
    | some st2 => (⟨true, 0⟩, st2)
    | none => (⟨false, 0⟩, st)
  | .ok (first :: _) =>
    let businessId := configuredBusinessId.getD first.id
    match fetchAppointments businessId with
    | .thrown => (⟨false, 0⟩, st)
    | .ok appointments =>
      let monthAppointments := appointments.filter (bookingStartInMonth monthKey)
      match storeBookingsForMonthSql now monthKey monthAppointments st with
      | some st2 => (⟨true, monthAppointments.length⟩, st2)
      | none => (⟨false, 0⟩, st)

/-- The Microsoft Graph credentials read from the environment; a missing or
empty variable is falsy. -/
structure SyncCredentials where
  tenantId : Option String
  clientId : Option String
  clientSecret : Option String
  deriving Repr, DecidableEq

/-- `TENANT_ID && CLIENT_ID && CLIENT_SECRET`. -/
def credentialsPresent (c : SyncCredentials) : Bool :=
  c.tenantId.getD "" != "" && c.clientId.getD "" != "" && c.clientSecret.getD "" != ""

/-- Result of `syncAllBookings`. -/
structure SyncAllResult where
  success : Bool
  monthsSynced : Nat
  totalBookings : Nat
  error : Option String
  deriving Repr, DecidableEq

/-- `syncAllBookings` (syncService.js lines 155-199): abort with a
structured failure when a credential is missing or token acquisition
throws; otherwise sync the 19 months from 6 behind to 12 ahead of the
current month in sequence, counting only the successful ones. -/
def syncAllBookings (creds : SyncCredentials) (tokenRes : FetchOutcome String)
    (businessesRes : FetchOutcome (List BookingBusiness))
    (configuredBusinessId : Option String)
    (fetchAppointmentsFor : Int → String → FetchOutcome (List BookingAppointment))
    (nowMonthIdx : Int) (now : Int) (st : BookingStore) : SyncAllResult × BookingStore :=
  if !credentialsPresent creds then (⟨false, 0, 0, some "Missing credentials"⟩, st)
  else
    match tokenRes with
    | .thrown => (⟨false, 0, 0, some "Failed to get token"⟩, st)
    | .ok _ =>
      let monthsToSync := (List.range 19).map fun i => nowMonthIdx - 6 + (i : Int)
      let final := monthsToSync.foldl
        (fun (acc : Nat × Nat × BookingStore) monthKey =>
          let step := syncMonthJs now monthKey businessesRes configuredBusinessId
            (fetchAppointmentsFor monthKey) acc.2.2
          if step.1.success then (acc.1 + step.1.count, acc.2.1 + 1, step.2)
          else (acc.1, acc.2.1, step.2))
        (0, 0, st)
      (⟨true, final.2.1, final.1, none⟩, final.2.2)

/-! ## Spec-side projection (claims C8, C10) -/

/-- The spec's description of the enriched event's answers list: the
flattening, over all of the booking's customers in order, of their custom
question answers whose answer is not whitespace-only, preserving
per-customer, per-question order. -/
def specAnswers (b : BookingAppointment) : List BookingCustomQuestionAnswer :=
  (b.customers.getD []).flatMap fun customer =>
    (customer.customQuestionAnswers.getD []).filter fun qa => jsTrim qa.answer != ""

/-! ## Concrete instances used by witnesses and counterexamples

Epoch-millisecond values: `2025-06-10T00:00:00Z = 1749513600000` (calendar
day 20249); 10:00 is `1749549600000`, 10:05 is `1749549900000`, 09:45 is
`1749548700000`, 10:45 is `1749552300000`, 11:00 is `1749553200000`. -/

/-- An event with no enrichment fields, assigned to `room-a`, 10:00-11:00
UTC on 2025-06-10 (raw strings without `Z`, zone label `UTC`). -/
def roomAEvent : CalendarEvent :=
  { id := "ev-1", subject := "Rezervare", start := ⟨⟨1749549600000, none⟩, "UTC"⟩
    endTime := ⟨⟨1749553200000, none⟩, "UTC"⟩, location := none, roomId := some "room-a"
    bookingCustomerName := none, bookingCustomerEmail := none, bookingCustomerPhone := none
    bookingCustomQuestions := none, bookingServiceNotes := none }

/-- The spec's concrete scenario booking: Ana, 10:05-11:00 UTC on
2025-06-10, location URI hint `room-a`, one custom answer. -/
def anaBooking : BookingAppointment :=
  { id := "bk-1", customerName := "Ana", customerEmailAddress := "ana@example.com"
    customerPhone := "0712000000", customerNotes := none, serviceNotes := none
    startDateTime := ⟨⟨1749549900000, some 0⟩, "UTC"⟩
    endDateTime := ⟨⟨1749553200000, some 0⟩, "UTC"⟩
    customers := some [⟨"Ana", some [⟨"Participanți", "12"⟩]⟩]
    serviceLocation := some ⟨"", none, some "room-a"⟩ }

/-- Tie-break scenario event: `room-b`, 10:00-11:00 UTC on 2025-06-10. -/
def tieEvent : CalendarEvent :=
  { id := "ev-2", subject := "Intalnire", start := ⟨⟨1749549600000, none⟩, "UTC"⟩
    endTime := ⟨⟨1749553200000, none⟩, "UTC"⟩, location := none, roomId := some "room-b"
    bookingCustomerName := none, bookingCustomerEmail := none, bookingCustomerPhone := none
    bookingCustomQuestions := none, bookingServiceNotes := none }

/-- Tie-break scenario booking at 09:45-10:45 (15-minute start difference). -/
def tieBooking0945 : BookingAppointment :=
  { id := "bk-0945", customerName := "Ion", customerEmailAddress := "", customerPhone := ""
    customerNotes := none, serviceNotes := none
    startDateTime := ⟨⟨1749548700000, some 0⟩, "UTC"⟩
    endDateTime := ⟨⟨1749552300000, some 0⟩, "UTC"⟩
    customers := none, serviceLocation := some ⟨"", none, some "room-b"⟩ }

/-- Tie-break scenario booking at 10:05-11:00 (5-minute start difference). -/
def tieBooking1005 : BookingAppointment :=
  { id := "bk-1005", customerName := "Maria", customerEmailAddress := "", customerPhone := ""
    customerNotes := none, serviceNotes := none
    startDateTime := ⟨⟨1749549900000, some 0⟩, "UTC"⟩
    endDateTime := ⟨⟨1749553200000, some 0⟩, "UTC"⟩
    customers := none, serviceLocation := some ⟨"", none, some "room-b"⟩ }

/-- A booking with no location reference at all. -/
def noLocationBooking : BookingAppointment :=
  { id := "bk-noloc", customerName := "Dan", customerEmailAddress := "", customerPhone := ""
    customerNotes := none, serviceNotes := none
    startDateTime := ⟨⟨1749549600000, some 0⟩, "UTC"⟩
    endDateTime := ⟨⟨1749553200000, some 0⟩, "UTC"⟩
    customers := none, serviceLocation := none }

/-- Day-boundary scenario booking: 23:59 on 1970-01-01 (local rendering with
offset 0), half-hour duration. -/
def lateBooking : BookingAppointment :=
  { id := "bk-2359", customerName := "Eva", customerEmailAddress := "", customerPhone := ""
    customerNotes := none, serviceNotes := none
    startDateTime := ⟨⟨86340000, none⟩, "UTC"⟩
    endDateTime := ⟨⟨88140000, none⟩, "UTC"⟩
    customers := none, serviceLocation := some ⟨"", none, some "room-c"⟩ }

/-- Day-boundary scenario event: 00:01 on 1970-01-02, same room `room-c`. -/
def earlyEvent : CalendarEvent :=
  { id := "ev-3", subject := "Sedinta", start := ⟨⟨86460000, none⟩, "UTC"⟩
    endTime := ⟨⟨90060000, none⟩, "UTC"⟩, location := none, roomId := some "room-c"
    bookingCustomerName := none, bookingCustomerEmail := none, bookingCustomerPhone := none
    bookingCustomQuestions := none, bookingServiceNotes := none }

/-- A matching pair on `room-c`: event 10:00-11:00 on 1970-01-01. -/
def sameDayEvent : CalendarEvent :=
  { id := "ev-4", subject := "Atelier", start := ⟨⟨36000000, none⟩, "UTC"⟩
    endTime := ⟨⟨39600000, none⟩, "UTC"⟩, location := none, roomId := some "room-c"
    bookingCustomerName := none, bookingCustomerEmail := none, bookingCustomerPhone := none
    bookingCustomQuestions := none, bookingServiceNotes := none }

/-- A booking matching `sameDayEvent` at 10:05-11:00; its only custom answer
is whitespace, and its service notes are empty with customer notes set. -/
def sameDayBooking : BookingAppointment :=
  { id := "bk-3", customerName := "Vlad", customerEmailAddress := "v@example.com"
    customerPhone := "0733", customerNotes := some "note client", serviceNotes := some ""
    startDateTime := ⟨⟨36300000, none⟩, "UTC"⟩
    endDateTime := ⟨⟨39600000, none⟩, "UTC"⟩
    customers := some [⟨"Vlad", some [⟨"Detalii", "   "⟩]⟩]
    serviceLocation := some ⟨"", none, some "room-c"⟩ }

/-- Civil instant 1970-01-15 12:00:00 UTC (month index 0). -/
def c3Now : CivilInstant := ⟨0, 15, 43200000⟩

/-- Metadata for bucket `1970-01` synced 90 minutes before `c3Now`. -/
def c3StaleMeta : MonthSyncMetadata := ⟨0, c3Now.ms - 5400000, 7⟩

/-- Metadata for bucket `1970-01` synced 125 minutes before `c3Now`. -/
def c3OlderMeta : MonthSyncMetadata := ⟨0, c3Now.ms - 7500000, 7⟩

/-- A booking that starts in month 0 (1970-01). -/
def januaryBooking : BookingAppointment :=
  { id := "bk-jan", customerName := "Oana", customerEmailAddress := "", customerPhone := ""
    customerNotes := none, serviceNotes := none
    startDateTime := ⟨⟨5000000, none⟩, "UTC"⟩
    endDateTime := ⟨⟨8600000, none⟩, "UTC"⟩
    customers := none, serviceLocation := none }

/-- A booking that starts in month 3 (1970-04): `startOfMonthMs 3` is
`7776000000` and `startOfMonthMs 4` is `10368000000`. -/
def aprilBooking : BookingAppointment :=
  { id := "bk-apr", customerName := "Radu", customerEmailAddress := "", customerPhone := ""
    customerNotes := none, serviceNotes := none
    startDateTime := ⟨⟨7800000000, none⟩, "UTC"⟩
    endDateTime := ⟨⟨7803600000, none⟩, "UTC"⟩
    customers := none, serviceLocation := none }

/-- A store holding, in bucket 3, a record whose booking actually starts in
month 0, and no sync metadata. -/
def staleStore : BookingStore := ⟨[⟨januaryBooking, "bk-jan", 3, 50⟩], []⟩

/-- A store with one record and metadata in bucket 0 (1970-01). -/
def c4Store : BookingStore := ⟨[⟨januaryBooking, "bk-jan", 0, 5⟩], [⟨0, 5, 1⟩]⟩

/-- Credentials with all three variables set. -/
def fullCreds : SyncCredentials := ⟨some "tenant", some "client", some "secret"⟩

/-- The single business of the small sync scenarios. -/
def mainBusiness : BookingBusiness := ⟨"biz-1", "Rezervari"⟩

/-- A store whose bucket 3 (1970-04) was previously synced with the April
booking, stored at time 50 with matching metadata. -/
def aprilStore : BookingStore := ⟨[⟨aprilBooking, "bk-apr", 3, 50⟩], [⟨3, 50, 1⟩]⟩

/-- A month-3 booking whose id sorts before `"bk-apr"` in store-key order. -/
def earlyIdBooking : BookingAppointment :=
  { id := "aa-apr", customerName := "Mihai", customerEmailAddress := "", customerPhone := ""
    customerNotes := none, serviceNotes := none
    startDateTime := ⟨⟨7810000000, none⟩, "UTC"⟩
    endDateTime := ⟨⟨7813600000, none⟩, "UTC"⟩
    customers := none, serviceLocation := none }

/-- A month-3 booking whose id sorts after `"bk-apr"` in store-key order. -/
def lateIdBooking : BookingAppointment :=
  { id := "zz-apr", customerName := "Elena", customerEmailAddress := "", customerPhone := ""
    customerNotes := none, serviceNotes := none
    startDateTime := ⟨⟨7820000000, none⟩, "UTC"⟩
    endDateTime := ⟨⟨7823600000, none⟩, "UTC"⟩
    customers := none, serviceLocation := none }

/-! ## Calendar facts -/

/-- Each month opens exactly `daysInMonthIdx` days after the previous one. -/
theorem startOfMonthMs_succ (k : Int) :
    startOfMonthMs (k + 1) = startOfMonthMs k + (msPerDay : Int) * (daysInMonthIdx k) := by
  rcases k with n | n
  · rfl
  · rcases n with _ | m
    · show startOfMonthMs 0 = _
      simp [startOfMonthMs, startOfMonthFwd, startOfMonthBwd]
    · show startOfMonthMs (Int.negSucc m) = _
      simp only [startOfMonthMs, startOfMonthBwd]
      ring

/-- Every month has at least 28 days. -/
theorem daysInMonthIdx_pos (k : Int) : 28 ≤ daysInMonthIdx k := by
  unfold daysInMonthIdx
  generalize isLeapYear (yearOfIdx k) = leap
  generalize (Int.emod k 12).toNat = m
  cases leap <;>
    rcases m with _ | _ | _ | _ | _ | _ | _ | _ | _ | _ | _ | m <;>
      simp [monthLengthAt]

/-- Month openings are strictly increasing. -/
theorem startOfMonthMs_strictMono {j k : Int} (h : j < k) :
    startOfMonthMs j < startOfMonthMs k := by
  have step : ∀ i : Int, startOfMonthMs i < startOfMonthMs (i + 1) := by
    intro i
    rw [startOfMonthMs_succ]
    have h28 := daysInMonthIdx_pos i
    have : (0 : Int) < (msPerDay : Int) * (daysInMonthIdx i) := by
      have : (0 : Int) < (daysInMonthIdx i : Int) := by exact_mod_cast Nat.lt_of_lt_of_le (by norm_num) h28
      have hd : (0 : Int) < (msPerDay : Int) := by norm_num [msPerDay]
      exact mul_pos hd this
    omega
  have mono : ∀ n : Nat, ∀ i : Int, startOfMonthMs i < startOfMonthMs (i + 1 + n) := by
    intro n
    induction n with
    | zero => intro i; simpa using step i
    | succ m ih =>
      intro i
      have h1 := ih i
      have h2 := step (i + 1 + m)
      have : i + 1 + (m + 1 : Nat) = (i + 1 + m) + 1 := by push_cast; ring
      rw [this]
      omega
  have : k = j + 1 + ((k - j - 1).toNat : Int) := by omega
  rw [this]
  exact mono _ j

/-- A valid civil instant lies inside its month's half-open interval. -/
theorem CivilInstant.ms_mem {t : CivilInstant} (ht : t.Valid) :
    startOfMonthMs t.monthIdx ≤ t.ms ∧ t.ms < startOfMonthMs (t.monthIdx + 1) := by
  obtain ⟨h1, h2, h3⟩ := ht
  unfold CivilInstant.ms
  rw [startOfMonthMs_succ]
  constructor
  · have : (0 : Int) ≤ (msPerDay : Int) * ((t.dayOfMonth : Int) - 1) := by
      have : (1 : Int) ≤ (t.dayOfMonth : Int) := by exact_mod_cast h1
      have hd : (0 : Int) ≤ (msPerDay : Int) := by norm_num [msPerDay]
      nlinarith
    omega
  · have hle : (t.dayOfMonth : Int) ≤ (daysInMonthIdx t.monthIdx : Int) := by exact_mod_cast h2
    have hms : (t.msOfDay : Int) < (msPerDay : Int) := by exact_mod_cast h3
    nlinarith [hle, hms]

/-- For a valid `now` and any month `k`, the code's `targetMonth > now` test
on instants coincides with the month-index comparison, once the current
month is excluded. -/
theorem startOfMonth_gt_iff {t : CivilInstant} (ht : t.Valid) (k : Int)
    (hne : k ≠ t.monthIdx) :
    (startOfMonthMs k > t.ms) ↔ k > t.monthIdx := by
  obtain ⟨hlo, hhi⟩ := CivilInstant.ms_mem ht
  constructor
  · intro hgt
    by_contra hle
    have hk : k < t.monthIdx := by omega
    have : startOfMonthMs k < startOfMonthMs t.monthIdx := startOfMonthMs_strictMono hk
    omega
  · intro hgt
    have hk : t.monthIdx + 1 ≤ k := by omega
    rcases eq_or_lt_of_le hk with h | h
    · rw [← h]; omega
    · have := startOfMonthMs_strictMono h
      omega

/-! ## Selection lemmas: the stable sort picks the first minimum -/

/-- Head of an insertion step. -/
theorem insertByDiff_head (a : MatchCandidate) (l : List MatchCandidate) :
    (insertByDiff a l).head? =
      some (match l.head? with
        | none => a
        | some b => if a.startDiff ≤ b.startDiff then a else b) := by
  cases l with
  | nil => rfl
  | cons b t =>
    unfold insertByDiff
    by_cases h : a.startDiff ≤ b.startDiff <;> simp [h]

/-- The head of the stable sort is the first minimum. -/
theorem sortByDiff_head (l : List MatchCandidate) :
    (sortByDiff l).head? = firstMinByDiff l := by
  induction l with
  | nil => rfl
  | cons a t ih =>
    unfold sortByDiff firstMinByDiff
    rw [insertByDiff_head, ih]
    cases h : firstMinByDiff t with
    | none => rfl
    | some b =>
      by_cases hle : a.startDiff ≤ b.startDiff
      · have : ¬ b.startDiff < a.startDiff := by omega
        simp [hle, this]
      · have : b.startDiff < a.startDiff := by omega
        simp [hle, this]

/-- `firstMinByDiff` returns `none` exactly on the empty list. -/
theorem firstMinByDiff_eq_none (l : List MatchCandidate) :
    firstMinByDiff l = none ↔ l = [] := by
  cases l with
  | nil => simp [firstMinByDiff]
  | cons a t =>
    simp only [firstMinByDiff]
    cases firstMinByDiff t <;> simp
    split <;> simp

/-- The first minimum is a member achieving the least `startDiff`. -/
theorem firstMinByDiff_min {l : List MatchCandidate} {c : MatchCandidate}
    (h : firstMinByDiff l = some c) :
    c ∈ l ∧ ∀ d ∈ l, c.startDiff ≤ d.startDiff := by
  induction l generalizing c with
  | nil => simp [firstMinByDiff] at h
  | cons a t ih =>
    simp only [firstMinByDiff] at h
    cases hm : firstMinByDiff t with
    | none =>
      rw [hm] at h
      obtain rfl : a = c := by simpa using h
      have ht : t = [] := (firstMinByDiff_eq_none t).1 hm
      subst ht
      simp
    | some b =>
      rw [hm] at h
      obtain ⟨hb, hmin⟩ := ih hm
      by_cases hlt : b.startDiff < a.startDiff
      · obtain rfl : b = c := by simpa [hlt] using h
        exact ⟨List.mem_cons_of_mem _ hb, by
          intro d hd
          rcases List.mem_cons.1 hd with rfl | hd
          · omega
          · exact hmin d hd⟩
      · obtain rfl : a = c := by simpa [hlt] using h
        refine ⟨List.mem_cons_self _ _, ?_⟩
        intro d hd
        rcases List.mem_cons.1 hd with rfl | hd
        · omega
        · have hbd := hmin d hd
          omega

/-- Stability: everything before the first minimum in the original list has
a strictly larger `startDiff`. -/
theorem firstMinByDiff_stable {l : List MatchCandidate} {c : MatchCandidate}
    (h : firstMinByDiff l = some c) :
    ∃ pre suf, l = pre ++ c :: suf ∧ ∀ d ∈ pre, c.startDiff < d.startDiff := by
  induction l generalizing c with
  | nil => simp [firstMinByDiff] at h
  | cons a t ih =>
    simp only [firstMinByDiff] at h
    cases hm : firstMinByDiff t with
    | none =>
      rw [hm] at h
      obtain rfl : a = c := by simpa using h
      exact ⟨[], t, rfl, by simp⟩
    | some b =>
      rw [hm] at h
      by_cases hlt : b.startDiff < a.startDiff
      · obtain rfl : b = c := by simpa [hlt] using h
        obtain ⟨pre, suf, hsplit, hpre⟩ := ih hm
        refine ⟨a :: pre, suf, by simp [hsplit], ?_⟩
        intro d hd
        rcases List.mem_cons.1 hd with rfl | hd
        · exact hlt
        · exact hpre d hd
      · obtain rfl : a = c := by simpa [hlt] using h
        exact ⟨[], t, rfl, by simp⟩

/-! ## Store lemmas -/

/-- After upserting metadata, looking its key up returns it. -/
theorem metaGet_upsertMeta (l : List MonthSyncMetadata) (m : MonthSyncMetadata) :
    metaGet (upsertMeta l m) m.monthKey = some m := by
  unfold upsertMeta metaGet
  by_cases h : l.any fun x => x.monthKey = m.monthKey
  · simp only [h, if_true]
    induction l with
    | nil => simp at h
    | cons a t ih =>
      by_cases ha : a.monthKey = m.monthKey
      · simp [List.find?, ha]
      · have ht : t.any fun x => x.monthKey = m.monthKey := by
          simp only [List.any_cons, ha] at h
          simpa using h
        simpa [List.find?, ha] using ih ht
  · simp only [h, if_false]
    induction l with
    | nil => simp [List.find?]
    | cons a t ih =>
      simp only [List.any_cons, Bool.or_eq_true, not_or] at h
      have ha : ¬ a.monthKey = m.monthKey := by simpa using h.1
      simpa [List.find?, ha] using ih (by simpa using h.2)









/-! ## Projection lemmas -/

/-- `filterMap` with an `if`-guard of the identity is `filter`. -/
theorem filterMap_ite_eq_filter {α : Type} (p : α → Bool) (l : List α) :
    l.filterMap (fun a => if p a then some a else none) = l.filter p := by
  induction l with
  | nil => rfl
  | cons a t ih =>
    by_cases hp : p a <;> simp [List.filterMap_cons, List.filter_cons, hp, ih]

/-- Folding list appends equals flattening. -/
theorem foldl_append_eq_flatMap {α β : Type} (g : α → List β) :
    ∀ (l : List α) (acc : List β),
      l.foldl (fun acc c => acc ++ g c) acc = acc ++ l.flatMap g := by
  intro l
  induction l with
  | nil => intro acc; simp
  | cons c t ih => intro acc; simp [ih, List.flatMap_cons]

/-- The source's answer guard `qa.answer && qa.answer.trim()` is the
whitespace-only test of the spec. -/
theorem answer_guard_eq (s : String) : (s != "" && jsTrim s != "") = (jsTrim s != "") := by
  by_cases hs : s = ""
  · rw [hs]; decide
  · simp [hs]

/-- The code's flattening of a booking's custom question answers equals the
spec's description. -/
theorem collectCustomQuestions_eq_specAnswers (b : BookingAppointment) :
    collectCustomQuestions b = specAnswers b := by
  unfold collectCustomQuestions specAnswers
  cases hc : b.customers with
  | none => simp
  | some customers =>
    simp only [Option.getD_some]
    have hstep :
        (fun (acc : List BookingCustomQuestionAnswer) (customer : BookingCustomer) =>
          match customer.customQuestionAnswers with
          | none => acc
          | some qas =>
            acc ++ qas.filterMap fun qa =>
              if qa.answer != "" && jsTrim qa.answer != "" then some qa else none)
        = fun acc customer =>
            acc ++ (customer.customQuestionAnswers.getD []).filter
              fun qa => jsTrim qa.answer != "" := by
      funext acc customer
      cases hq : customer.customQuestionAnswers with
      | none => simp
      | some qas =>
        simp only [Option.getD_some]
        have hguard :
            (fun qa : BookingCustomQuestionAnswer =>
              if qa.answer != "" && jsTrim qa.answer != "" then some qa else none)
            = fun qa => if jsTrim qa.answer != "" then some qa else none := by
          funext qa
          rw [answer_guard_eq]
        rw [hguard, filterMap_ite_eq_filter]
    cases customers with
    | nil => simp
    | cons c t =>
      simp only [List.length_cons, if_pos (Nat.succ_pos t.length)]
      rw [hstep, foldl_append_eq_flatMap]
      simp

/-! ## The staleness policy -/

/-- Under a valid `now`, the code's instant-comparison branch for the
maximum age coincides with the spec's month-relation branch. -/
theorem maxAge_eq_spec {now : CivilInstant} (ht : now.Valid) (k : Int) :
    (if k = now.monthIdx then (1 : Int)
      else if startOfMonthMs k > now.ms then 6 else 24) = specMaxAge now k := by
  unfold specMaxAge
  by_cases h : k = now.monthIdx
  · simp [h]
  · simp only [h, if_false]
    exact if_congr (startOfMonth_gt_iff ht k h) rfl rfl

/-- C3 counterexample: bucket `1970-01` is the current calendar month of
`c3Now` and was synced 90 minutes ago, so the elapsed time exceeds the
1-hour maximum age, yet `monthNeedsSync` returns `false` - date-fns
`differenceInHours` truncates 1.5 hours to 1 whole hour, and `1 > 1`
fails. -/
theorem monthNeedsSync_counterexample :
    monthNeedsSync [c3StaleMeta] c3Now 0 = false
    ∧ metaGet [c3StaleMeta] 0 = some c3StaleMeta
    ∧ 0 = c3Now.monthIdx
    ∧ c3Now.ms - c3StaleMeta.lastSync = 5400000
    ∧ specMaxAge c3Now 0 * (msPerHour : Int) = 3600000
    ∧ (5400000 : Int) > 3600000 := by
  decide

/-- C3 (amended): `monthNeedsSync(bucketKey)` returns `true` when no sync
metadata exists for the bucket, and otherwise returns `true` exactly when
the time elapsed since the bucket's `lastSyncedAt`, truncated to whole
hours, exceeds `maxAge`, where `maxAge` is 1 hour for the current calendar
month, 6 hours for a strictly future month and 24 hours for a strictly past
month; immediately after a sync of the bucket it returns `false`. -/
theorem monthNeedsSync_staleness_policy :
    ∀ (syncMeta : List MonthSyncMetadata) (now : CivilInstant) (k : Int), now.Valid →
      (monthNeedsSync syncMeta now k = true ↔
        metaGet syncMeta k = none ∨
          ∃ meta, metaGet syncMeta k = some meta ∧
            Int.tdiv (now.ms - meta.lastSync) (msPerHour : Int) > specMaxAge now k)
      ∧ (∀ (st : BookingStore) (bookings : List BookingAppointment),
          monthNeedsSync (storeBookingsForMonth now.ms k bookings st).syncMeta now k
            = false) := by
  intro syncMeta now k ht
  constructor
  · cases hm : metaGet syncMeta k with
    | none => simp [monthNeedsSync, hm]
    | some meta =>
      simp only [monthNeedsSync, hm]
      rw [maxAge_eq_spec ht k]
      simp
  · intro st bookings
    have hget := metaGet_upsertMeta st.syncMeta ⟨k, now.ms, bookings.length⟩
    simp only [monthNeedsSync, storeBookingsForMonth, hget]
    simp only [sub_self, Int.zero_tdiv]
    split_ifs <;> decide

/-- C3 witness: at the concrete instant `c3Now`, a bucket synced 125
minutes ago in the current month is stale again (two whole hours exceed the
1-hour age), a bucket with no metadata is stale, and a bucket stored at
`c3Now` itself is fresh. -/
theorem monthNeedsSync_staleness_policy_witness :
    c3Now.Valid
    ∧ monthNeedsSync [c3OlderMeta] c3Now 0 = true
    ∧ monthNeedsSync [] c3Now 0 = true
    ∧ monthNeedsSync (storeBookingsForMonth c3Now.ms 0 [] ⟨[], [c3OlderMeta]⟩).syncMeta
        c3Now 0 = false := by
  have hv : c3Now.Valid := by decide
  refine ⟨hv, ?_, ?_, ?_⟩
  · exact ((monthNeedsSync_staleness_policy [c3OlderMeta] c3Now 0 hv).1).2
      (Or.inr ⟨c3OlderMeta, by decide, by decide⟩)
  · exact ((monthNeedsSync_staleness_policy [] c3Now 0 hv).1).2 (Or.inl (by decide))
  · exact (monthNeedsSync_staleness_policy [] c3Now 0 hv).2 ⟨[], [c3OlderMeta]⟩ []

/-! ## Boolean cascade lemmas -/

/-- An early `return true` branch is a disjunct. -/
theorem ite_true_else (c r : Bool) : (if c then true else r) = (c || r) := by
  cases c <;> simp

/-- A guarded final test is a conjunction. -/
theorem ite_prop_and (p : Prop) [Decidable p] (w : Bool) :
    (if p then w else false) = (decide p && w) := by
  by_cases h : p <;> simp [h]

/-- C2: the resource pre-filter `locationMatchesRoom` judges a booking's
location equivalent to the event's room exactly as the spec's ordered
heuristics (a)-(f) describe - their first-match-wins cascade being their
disjunction - and a booking with no location reference never matches. -/
theorem locationMatchesRoom_spec :
    (∀ (b : BookingAppointment) (e : CalendarEvent),
      locationMatchesRoom b e = specLocationMatchesRoom b e)
    ∧ ∀ (b : BookingAppointment) (e : CalendarEvent),
        b.serviceLocation = none → locationMatchesRoom b e = false := by
  constructor
  · intro b e
    cases hsl : b.serviceLocation with
    | none => simp [locationMatchesRoom, specLocationMatchesRoom, hsl]
    | some loc =>
      simp only [locationMatchesRoom, specLocationMatchesRoom, specLocalPartMatch, hsl]
      rw [ite_true_else, ite_true_else, ite_true_else, ite_true_else, ite_true_else,
        ite_true_else, ite_prop_and]
      simp only [specUriMatch, specEmailMatch, specNameEqMatch, specNameSubMatch,
        specLocalPartEqMatch, specLocalPartSubMatch, specWordMatch]
      simp only [Bool.or_assoc]
  · intro b e h
    simp [locationMatchesRoom, h]

/-- C2 witness: a booking without a location reference fails the filter,
and the cascade-disjunction equivalence evaluated at the concrete scenario
booking and event. -/
theorem locationMatchesRoom_spec_witness :
    locationMatchesRoom noLocationBooking tieEvent = false
    ∧ locationMatchesRoom anaBooking roomAEvent = specLocationMatchesRoom anaBooking roomAEvent
    ∧ locationMatchesRoom anaBooking roomAEvent = true :=
  ⟨locationMatchesRoom_spec.2 noLocationBooking tieEvent rfl,
    locationMatchesRoom_spec.1 anaBooking roomAEvent, by decide⟩

/-- C1: for every event, a booking (passing the same-day and resource
pre-filters) enters the acceptance pool exactly when its start differs from
the event's by at most 30 whole minutes or their intervals overlap; each
pool entry carries that booking and its start difference; and the selected
candidate is the pool entry with the smallest start difference, the
earliest pool position winning ties (JS `sort` is stable). -/
theorem enrich_candidate_selection :
    ∀ (tzOff : Int) (e : CalendarEvent) (bookings : List BookingAppointment),
      (∀ b : BookingAppointment,
        evalBooking tzOff e b ≠ none ↔
          isSameDay tzOff (eventStartInstant tzOff e) (parseBookingDate b.startDateTime) = true
            ∧ locationMatchesRoom b e = true
            ∧ (absDiffMinutes (eventStartInstant tzOff e) (parseBookingDate b.startDateTime) ≤ 30
              ∨ (eventStartInstant tzOff e < parseBookingDate b.endDateTime
                ∧ eventEndInstant tzOff e > parseBookingDate b.startDateTime)))
      ∧ (∀ b : BookingAppointment,
          evalBooking tzOff e b = none
            ∨ evalBooking tzOff e b = some ⟨b, absDiffMinutes (eventStartInstant tzOff e)
                (parseBookingDate b.startDateTime)⟩)
      ∧ (selectedCandidate tzOff e bookings = none ↔ potentialMatches tzOff e bookings = [])
      ∧ ∀ cand, selectedCandidate tzOff e bookings = some cand →
          cand ∈ potentialMatches tzOff e bookings
            ∧ (∀ d ∈ potentialMatches tzOff e bookings, cand.startDiff ≤ d.startDiff)
            ∧ ∃ pre suf, potentialMatches tzOff e bookings = pre ++ cand :: suf
                ∧ ∀ d ∈ pre, cand.startDiff < d.startDiff := by
  intro tzOff e bookings
  refine ⟨?_, ?_, ?_, ?_⟩
  · intro b
    by_cases h1 : isSameDay tzOff (eventStartInstant tzOff e) (parseBookingDate b.startDateTime)
      <;> by_cases h2 : locationMatchesRoom b e
      <;> by_cases h3 : absDiffMinutes (eventStartInstant tzOff e)
            (parseBookingDate b.startDateTime) ≤ 30
      <;> by_cases h4 : eventStartInstant tzOff e < parseBookingDate b.endDateTime
      <;> by_cases h5 : eventEndInstant tzOff e > parseBookingDate b.startDateTime
      <;> simp [evalBooking, h1, h2, h3, h4, h5]
  · intro b
    by_cases h1 : isSameDay tzOff (eventStartInstant tzOff e) (parseBookingDate b.startDateTime)
      <;> by_cases h2 : locationMatchesRoom b e
      <;> by_cases h3 : absDiffMinutes (eventStartInstant tzOff e)
            (parseBookingDate b.startDateTime) ≤ 30
      <;> by_cases h4 : eventStartInstant tzOff e < parseBookingDate b.endDateTime
      <;> by_cases h5 : eventEndInstant tzOff e > parseBookingDate b.startDateTime
      <;> simp [evalBooking, h1, h2, h3, h4, h5]
  · unfold selectedCandidate
    rw [sortByDiff_head]
    exact firstMinByDiff_eq_none _
  · intro cand hsel
    unfold selectedCandidate at hsel
    rw [sortByDiff_head] at hsel
    obtain ⟨hmem, hmin⟩ := firstMinByDiff_min hsel
    obtain ⟨pre, suf, hsplit, hpre⟩ := firstMinByDiff_stable hsel
    exact ⟨hmem, hmin, pre, suf, hsplit, hpre⟩

/-- C1 witness: the nearest-start tie-break scenario - event at 10:00, same
day and room bookings at 09:45 and 10:05 - yields a two-candidate pool and
selects the 10:05 booking (5-minute difference) over the 09:45 one
(15-minute difference). -/
theorem enrich_candidate_selection_witness :
    selectedCandidate 0 tieEvent [tieBooking0945, tieBooking1005]
        = some ⟨tieBooking1005, 5⟩
    ∧ (⟨tieBooking1005, 5⟩ : MatchCandidate)
        ∈ potentialMatches 0 tieEvent [tieBooking0945, tieBooking1005]
    ∧ (∀ d ∈ potentialMatches 0 tieEvent [tieBooking0945, tieBooking1005],
        5 ≤ d.startDiff)
    ∧ evalBooking 0 tieEvent tieBooking0945 ≠ none := by
  have hsel : selectedCandidate 0 tieEvent [tieBooking0945, tieBooking1005]
      = some ⟨tieBooking1005, 5⟩ := by decide
  obtain ⟨hmem, hmin, -⟩ :=
    (enrich_candidate_selection 0 tieEvent [tieBooking0945, tieBooking1005]).2.2.2 _ hsel
  refine ⟨hsel, hmem, fun d hd => hmin d hd, ?_⟩
  exact ((enrich_candidate_selection 0 tieEvent [tieBooking0945, tieBooking1005]).1
    tieBooking0945).2 ⟨by decide, by decide, Or.inl (by decide)⟩

/-! ## Candidate-evaluation helper lemmas -/

/-- A candidate either fails or carries its booking and start difference. -/
theorem evalBooking_none_or_some (tzOff : Int) (e : CalendarEvent) (b : BookingAppointment) :
    evalBooking tzOff e b = none
      ∨ evalBooking tzOff e b = some ⟨b, absDiffMinutes (eventStartInstant tzOff e)
          (parseBookingDate b.startDateTime)⟩ := by
  by_cases h1 : isSameDay tzOff (eventStartInstant tzOff e) (parseBookingDate b.startDateTime)
    <;> by_cases h2 : locationMatchesRoom b e
    <;> by_cases h3 : absDiffMinutes (eventStartInstant tzOff e)
          (parseBookingDate b.startDateTime) ≤ 30
    <;> by_cases h4 : eventStartInstant tzOff e < parseBookingDate b.endDateTime
    <;> by_cases h5 : eventEndInstant tzOff e > parseBookingDate b.startDateTime
    <;> simp [evalBooking, h1, h2, h3, h4, h5]

/-- A surviving candidate passed the same-day pre-filter. -/
theorem evalBooking_sameDay {tzOff : Int} {e : CalendarEvent} {b : BookingAppointment}
    {cand : MatchCandidate} (h : evalBooking tzOff e b = some cand) :
    isSameDay tzOff (eventStartInstant tzOff e) (parseBookingDate b.startDateTime) = true := by
  by_cases h1 : isSameDay tzOff (eventStartInstant tzOff e) (parseBookingDate b.startDateTime)
  · exact h1
  · simp [evalBooking, h1] at h

/-- A surviving candidate carries its booking. -/
theorem evalBooking_booking {tzOff : Int} {e : CalendarEvent} {b : BookingAppointment}
    {cand : MatchCandidate} (h : evalBooking tzOff e b = some cand) :
    cand.booking = b := by
  rcases evalBooking_none_or_some tzOff e b with hn | hs
  · rw [hn] at h; cases h
  · rw [hs] at h
    obtain rfl : (⟨b, _⟩ : MatchCandidate) = cand := Option.some.inj h
    rfl

/-- The selected candidate belongs to the pool. -/
theorem selectedCandidate_mem {tzOff : Int} {e : CalendarEvent}
    {bookings : List BookingAppointment} {cand : MatchCandidate}
    (h : selectedCandidate tzOff e bookings = some cand) :
    cand ∈ potentialMatches tzOff e bookings := by
  unfold selectedCandidate at h
  rw [sortByDiff_head] at h
  exact (firstMinByDiff_min h).1

/-- Reading off a local day from a decomposition into day and time. -/
theorem localDayOf_eq {tzOff t d r : Int} (h : t + tzOff = d * (msPerDay : Int) + r)
    (h0 : 0 ≤ r) (h1 : r < (msPerDay : Int)) : localDayOf tzOff t = d := by
  unfold localDayOf
  rw [Int.fdiv_eq_ediv _ (by simp [msPerDay])]
  simp only [msPerDay, Int.ofNat_eq_natCast] at h h1 ⊢
  omega

/-- C7: a booking survives the candidate filter only if its normalized
start instant falls on the same local calendar day as the event's
normalized start; in particular a booking whose local rendering is 23:59 of
one day can never match an event at 00:01 of the next day, whatever the
resource match. -/
theorem temporal_prefilter_day :
    (∀ (tzOff : Int) (e : CalendarEvent) (b : BookingAppointment) (cand : MatchCandidate),
      evalBooking tzOff e b = some cand →
        localDayOf tzOff (eventStartInstant tzOff e)
          = localDayOf tzOff (parseBookingDate b.startDateTime))
    ∧ (∀ (tzOff : Int) (e : CalendarEvent) (bookings : List BookingAppointment)
        (cand : MatchCandidate),
        selectedCandidate tzOff e bookings = some cand →
          localDayOf tzOff (eventStartInstant tzOff e)
            = localDayOf tzOff (parseBookingDate cand.booking.startDateTime))
    ∧ ∀ (tzOff : Int) (e : CalendarEvent) (b : BookingAppointment) (d : Int),
        parseBookingDate b.startDateTime + tzOff = d * (msPerDay : Int) + 86340000 →
        eventStartInstant tzOff e + tzOff = (d + 1) * (msPerDay : Int) + 60000 →
        evalBooking tzOff e b = none := by
  refine ⟨?_, ?_, ?_⟩
  · intro tzOff e b cand h
    have hsd := evalBooking_sameDay h
    simpa [isSameDay] using hsd
  · intro tzOff e bookings cand h
    obtain ⟨b, hb, heval⟩ := List.mem_filterMap.1 (selectedCandidate_mem h)
    have hbk := evalBooking_booking heval
    rw [hbk]
    have hsd := evalBooking_sameDay heval
    simpa [isSameDay] using hsd
  · intro tzOff e b d hb he
    have hdb : localDayOf tzOff (parseBookingDate b.startDateTime) = d :=
      localDayOf_eq hb (by norm_num) (by norm_num [msPerDay])
    have hde : localDayOf tzOff (eventStartInstant tzOff e) = d + 1 :=
      localDayOf_eq he (by norm_num) (by norm_num [msPerDay])
    have hne : isSameDay tzOff (eventStartInstant tzOff e)
        (parseBookingDate b.startDateTime) = false := by
      simp [isSameDay, hdb, hde]
    simp [evalBooking, hne]

/-- C7 witness: the 23:59 booking of 1970-01-01 is rejected for the 00:01
event of 1970-01-02 despite matching `room-c`, while a same-day pair on
`room-c` is selected and indeed shares its local calendar day. -/
theorem temporal_prefilter_day_witness :
    evalBooking 0 earlyEvent lateBooking = none
    ∧ localDayOf 0 (eventStartInstant 0 sameDayEvent)
        = localDayOf 0 (parseBookingDate sameDayBooking.startDateTime)
    ∧ selectedCandidate 0 sameDayEvent [sameDayBooking] = some ⟨sameDayBooking, 5⟩
    ∧ locationMatchesRoom lateBooking earlyEvent = true := by
  have h1 : evalBooking 0 earlyEvent lateBooking = none :=
    temporal_prefilter_day.2.2 0 earlyEvent lateBooking 0 (by decide) (by decide)
  have hsel : selectedCandidate 0 sameDayEvent [sameDayBooking]
      = some ⟨sameDayBooking, 5⟩ := by decide
  have h2 := temporal_prefilter_day.2.1 0 sameDayEvent [sameDayBooking] _ hsel
  exact ⟨h1, h2, hsel, by decide⟩

/-- C8: on a match the enriched event carries the booking's customer name,
email and phone; its custom-question list is the order-preserving
flattening of the customers' non-whitespace answers; its service notes are
the booking's service notes, falling back to customer notes, absent when
both are missing or empty; and the spec's concrete room-a scenario
reconciles to one enriched event with booker Ana and exactly one answer. -/
theorem enrich_projection :
    (∀ (tzOff : Int) (bookings : List BookingAppointment) (e : CalendarEvent)
        (cand : MatchCandidate), selectedCandidate tzOff e bookings = some cand →
      (enrichOne tzOff bookings e).bookingCustomerName = some cand.booking.customerName
      ∧ (enrichOne tzOff bookings e).bookingCustomerEmail
          = some cand.booking.customerEmailAddress
      ∧ (enrichOne tzOff bookings e).bookingCustomerPhone = some cand.booking.customerPhone
      ∧ (specAnswers cand.booking ≠ [] →
          (enrichOne tzOff bookings e).bookingCustomQuestions
            = some (specAnswers cand.booking))
      ∧ (∀ s, cand.booking.serviceNotes = some s → s ≠ "" →
          (enrichOne tzOff bookings e).bookingServiceNotes = some s)
      ∧ ((cand.booking.serviceNotes = none ∨ cand.booking.serviceNotes = some "") →
          ∀ s, cand.booking.customerNotes = some s → s ≠ "" →
            (enrichOne tzOff bookings e).bookingServiceNotes = some s)
      ∧ ((cand.booking.serviceNotes = none ∨ cand.booking.serviceNotes = some "") →
          (cand.booking.customerNotes = none ∨ cand.booking.customerNotes = some "") →
          (enrichOne tzOff bookings e).bookingServiceNotes = none))
    ∧ enrichEventsWithBookingData 0 [roomAEvent] [anaBooking]
        = [{ roomAEvent with
            bookingCustomerName := some "Ana"
            bookingCustomerEmail := some "ana@example.com"
            bookingCustomerPhone := some "0712000000"
            bookingCustomQuestions := some [⟨"Participanți", "12"⟩]
            bookingServiceNotes := none }] := by
  constructor
  · intro tzOff bookings e cand hsel
    simp only [enrichOne, hsel]
    rw [collectCustomQuestions_eq_specAnswers]
    refine ⟨trivial, trivial, trivial, ?_, ?_, ?_, ?_⟩
    · intro hne
      simp [List.length_pos.2 hne]
    · intro s hs hne
      simp [jsOrString, hs, hne]
    · rintro (h | h) s hs hne <;> simp [jsOrString, h, hs, hne]
    · rintro (h | h) (h2 | h2) <;> simp [jsOrString, h, h2]
  · decide

/-- C8 witness: the scenario selection applied through the projection
theorem yields booker Ana and her single answer. -/
theorem enrich_projection_witness :
    selectedCandidate 0 roomAEvent [anaBooking] = some ⟨anaBooking, 5⟩
    ∧ (enrichOne 0 [anaBooking] roomAEvent).bookingCustomerName = some "Ana"
    ∧ (enrichOne 0 [anaBooking] roomAEvent).bookingCustomQuestions
        = some [⟨"Participanți", "12"⟩] := by
  have hsel : selectedCandidate 0 roomAEvent [anaBooking] = some ⟨anaBooking, 5⟩ := by
    decide
  obtain ⟨hname, -, -, hq, -, -, -⟩ := enrich_projection.1 0 [anaBooking] roomAEvent _ hsel
  exact ⟨hsel, hname, hq (by decide)⟩

/-- C9: reconciliation with no bookings is the identity; in general the
output has the same length and order as the input events, and an event for
which no candidate is selected passes through unmodified. -/
theorem reconcile_identity :
    (∀ (tzOff : Int) (events : List CalendarEvent),
      enrichEventsWithBookingData tzOff events [] = events)
    ∧ (∀ (tzOff : Int) (events : List CalendarEvent) (bookings : List BookingAppointment),
        (enrichEventsWithBookingData tzOff events bookings).length = events.length)
    ∧ ∀ (tzOff : Int) (events : List CalendarEvent) (bookings : List BookingAppointment)
        (i : Nat) (e : CalendarEvent), events[i]? = some e →
        selectedCandidate tzOff e bookings = none →
        (enrichEventsWithBookingData tzOff events bookings)[i]? = some e := by
  refine ⟨?_, ?_, ?_⟩
  · intro tzOff events
    rfl
  · intro tzOff events bookings
    unfold enrichEventsWithBookingData
    split <;> simp
  · intro tzOff events bookings i e he hsel
    unfold enrichEventsWithBookingData
    split
    · exact he
    · rw [List.getElem?_map, he]
      simp [enrichOne, hsel]

/-- C9 witness: the no-bookings identity on two events, and an event
untouched at its position when the only booking has no location
reference. -/
theorem reconcile_identity_witness :
    enrichEventsWithBookingData 0 [tieEvent, roomAEvent] [] = [tieEvent, roomAEvent]
    ∧ (enrichEventsWithBookingData 0 [earlyEvent] [noLocationBooking])[0]?
        = some earlyEvent :=
  ⟨reconcile_identity.1 0 [tieEvent, roomAEvent],
    reconcile_identity.2.2 0 [earlyEvent] [noLocationBooking] 0 earlyEvent (by decide)
      (by decide)⟩

/-- C10: when the selected booking has no non-whitespace custom answer the
enriched event's `bookingCustomQuestions` stays absent rather than becoming
an empty list; and on any event that came in without that field, the field
is non-empty whenever it is present on the way out. -/
theorem bookingCustomQuestions_nonempty :
    (∀ (tzOff : Int) (bookings : List BookingAppointment) (e : CalendarEvent)
        (cand : MatchCandidate), selectedCandidate tzOff e bookings = some cand →
      specAnswers cand.booking = [] →
        (enrichOne tzOff bookings e).bookingCustomQuestions = none)
    ∧ ∀ (tzOff : Int) (events : List CalendarEvent) (bookings : List BookingAppointment)
        (i : Nat) (e outEv : CalendarEvent) (l : List BookingCustomQuestionAnswer),
        events[i]? = some e → e.bookingCustomQuestions = none →
        (enrichEventsWithBookingData tzOff events bookings)[i]? = some outEv →
        outEv.bookingCustomQuestions = some l → l ≠ [] := by
  constructor
  · intro tzOff bookings e cand hsel hempty
    simp only [enrichOne, hsel]
    rw [collectCustomQuestions_eq_specAnswers, hempty]
    simp
  · intro tzOff events bookings i e outEv l he henone hout hsome
    unfold enrichEventsWithBookingData at hout
    split at hout
    · rw [he] at hout
      obtain rfl := Option.some.inj hout
      rw [henone] at hsome
      cases hsome
    · rw [List.getElem?_map, he] at hout
      obtain rfl : enrichOne tzOff bookings e = outEv := Option.some.inj hout
      cases hsel : selectedCandidate tzOff e bookings with
      | none =>
        simp only [enrichOne, hsel] at hsome
        rw [henone] at hsome
        cases hsome
      | some cand =>
        simp only [enrichOne, hsel] at hsome
        by_cases hq : (collectCustomQuestions cand.booking).length > 0
        · rw [if_pos hq] at hsome
          obtain rfl := Option.some.inj hsome
          exact List.length_pos.1 hq
        · rw [if_neg hq] at hsome
          cases hsome

/-- C10 witness: the event matched by a booking whose only answer is
whitespace comes out with the field absent, while the room-a scenario's
present field is a non-empty list. -/
theorem bookingCustomQuestions_nonempty_witness :
    (enrichOne 0 [sameDayBooking] sameDayEvent).bookingCustomQuestions = none
    ∧ ([⟨"Participanți", "12"⟩] : List BookingCustomQuestionAnswer) ≠ [] := by
  have hsel : selectedCandidate 0 sameDayEvent [sameDayBooking]
      = some ⟨sameDayBooking, 5⟩ := by decide
  refine ⟨bookingCustomQuestions_nonempty.1 0 [sameDayBooking] sameDayEvent _ hsel
    (by decide), ?_⟩
  exact bookingCustomQuestions_nonempty.2 0 [roomAEvent] [anaBooking] 0 roomAEvent
    (enrichOne 0 [anaBooking] roomAEvent) [⟨"Participanți", "12"⟩] (by decide) (by decide)
    (by decide) (by decide)




/-- C5 evidence: re-syncing a non-empty bucket does not replace its
contents with the month-filtered remote set. The transaction's delete
cursor opens at the bucket's smallest pre-existing id, the `put`s execute
before the cursor's `delete`/`continue` requests, and the live cursor then
sweeps every bucket record - old or newly put - at or after that id. With
the bucket holding `"bk-apr"`, re-fetching the very same booking reports
`{success: true, count: 1}` and metadata `recordCount = 1` while the bucket
ends EMPTY; with new ids `"aa-apr"`/`"zz-apr"` only the record sorting
before `"bk-apr"` survives. An empty business listing also reports success
while storing nothing. The claim (and the source's own "First, delete
existing... Then store new bookings" comments) describe the intended
replacement. -/
theorem syncMonth_resync_loses_records :
    (syncMonth 1000 3 (.ok [mainBusiness]) (fun _ => .ok [aprilBooking]) aprilStore).1
      = ⟨true, 1⟩
    ∧ (syncMonth 1000 3 (.ok [mainBusiness])
        (fun _ => .ok [aprilBooking]) aprilStore).2.bookings = []
    ∧ metaGet (syncMonth 1000 3 (.ok [mainBusiness])
        (fun _ => .ok [aprilBooking]) aprilStore).2.syncMeta 3 = some ⟨3, 1000, 1⟩
    ∧ bookingStartInMonth 3 aprilBooking = true
    ∧ aprilStore.bookings = [⟨aprilBooking, "bk-apr", 3, 50⟩]
    ∧ (syncMonth 1000 3 (.ok [mainBusiness])
        (fun _ => .ok [earlyIdBooking, lateIdBooking]) aprilStore).2.bookings
      = [⟨earlyIdBooking, "aa-apr", 3, 1000⟩]
    ∧ bookingStartInMonth 3 earlyIdBooking = true
    ∧ bookingStartInMonth 3 lateIdBooking = true
    ∧ syncMonth 1000 3 (.ok []) (fun _ => .thrown) staleStore = (⟨true, 0⟩, staleStore)
    ∧ metaGet staleStore.syncMeta 3 = none := by
  decide

/-- C4 evidence: with credentials configured, a working token endpoint and
a booking source whose businesses listing answers with an HTTP error (a
total outage of the booking source, which `getBookingBusinesses` turns
into an empty list), `syncAllBookings` reports success with no error
message and overwrites every bucket of the window with an empty set,
clearing the previously stored record of bucket 0 - instead of aborting
with a structured failure and leaving stored data untouched. A genuinely
missing credential, by contrast, does abort with a failure result and an
untouched store. -/
theorem syncAllBookings_outage_clears_buckets :
    (syncAllBookings fullCreds (.ok "token") (.ok []) none (fun _ _ => .thrown) 6 999
        c4Store).1.success = true
    ∧ (syncAllBookings fullCreds (.ok "token") (.ok []) none (fun _ _ => .thrown) 6 999
        c4Store).1.error = none
    ∧ (syncAllBookings fullCreds (.ok "token") (.ok []) none (fun _ _ => .thrown) 6 999
        c4Store).2.bookings = []
    ∧ metaGet (syncAllBookings fullCreds (.ok "token") (.ok []) none
        (fun _ _ => .thrown) 6 999 c4Store).2.syncMeta 0 = some ⟨0, 999, 0⟩
    ∧ c4Store.bookings ≠ []
    ∧ syncAllBookings ⟨none, some "client", some "secret"⟩ (.ok "token") (.ok []) none
        (fun _ _ => .thrown) 6 999 c4Store
      = (⟨false, 0, 0, some "Missing credentials"⟩, c4Store) := by
  decide

/-- C6 evidence: one `syncAllNeededMonths` call with a free guard launches
TWO `syncOperation` executions (line 109 stores an un-awaited invocation,
line 112 awaits a fresh one); every cooperative interleaving of the two
executions performs `syncMonth` twice for the single stale month, and an
interleaving exists in which both `syncMonth` calls are in flight before
either completes - the months of one logical pass are not synced strictly
one after another. A caller that finds the guard set starts no execution. -/
theorem syncAllNeeded_double_pass :
    syncAllNeededMonthsTasks false [3]
        = [syncOperationActions [3], syncOperationActions [3]]
    ∧ syncOperationActions [3]
        = [.onProgress 1 1 3, .syncMonthBegin 3, .syncMonthDone 3]
    ∧ ((interleavings (syncOperationActions [3]) (syncOperationActions [3])).all
        fun tr => tr.count (SyncAction.syncMonthBegin 3) = 2) = true
    ∧ [SyncAction.onProgress 1 1 3, .syncMonthBegin 3, .onProgress 1 1 3, .syncMonthBegin 3,
        .syncMonthDone 3, .syncMonthDone 3]
        ∈ interleavings (syncOperationActions [3]) (syncOperationActions [3])
    ∧ syncAllNeededMonthsTasks true [3] = [] := by
  refine ⟨by decide, by decide, by decide, by decide, by decide⟩
